import Mathlib

/- Shallow embedding of the Emission-Atlas Blender addon (emission_atlas.py)
   and its packaging script (package_release.py).  Python floats are modelled
   as exact rationals, Blender data blocks as plain structures, and the
   host-mutated state as explicit state passing.  Blender guarantees that the
   names of materials and objects in a file are unique, so Python dicts keyed
   by names are modelled as association lists. -/

/-- RGB colour triple, the value of `node.inputs["Color"].default_value[:3]`. -/
abbrev Color3 := ℚ × ℚ × ℚ

/-- RGBA quadruple, a full node socket default value. -/
abbrev Color4 := ℚ × ℚ × ℚ × ℚ

/-- A single assignment `pixels[p] = v` into the flat pixel buffer. -/
def bufWrite (p : Nat) (v : ℚ) (b : Nat → ℚ) : Nat → ℚ :=
  fun j => if j = p then v else b j

/-- `px_index = ((y * atlas_width) + (x_start + x)) * 4` from
    `create_texture_atlas`. -/
def atlasPxIndex (W xstart x y : Nat) : Nat := ((y * W) + (xstart + x)) * 4

/-- The four assignments of the inner loop of `create_texture_atlas`: R, G, B at
    `p`, `p+1`, `p+2` and alpha `1.0` at `p+3`. -/
def fillPixel (c : Color3) (p : Nat) (b : Nat → ℚ) : Nat → ℚ :=
  bufWrite (p + 3) 1 (bufWrite (p + 2) c.2.2 (bufWrite (p + 1) c.2.1 (bufWrite p c.1 b)))

/-- The flat-buffer indices written for one material column: `x` ranges over
    the column width and `y` over the atlas height, in the order of the two
    nested `for` loops. -/
def columnPositions (W H xstart cw : Nat) : List Nat :=
  (List.range cw).flatMap (fun x => (List.range H).map (fun y => atlasPxIndex W xstart x y))

/-- Fill one column of the atlas with a single colour. -/
def fillColumn (c : Color3) (ps : List Nat) (b : Nat → ℚ) : Nat → ℚ :=
  ps.foldl (fun acc p => fillPixel c p acc) b

/-- Python `enumerate`, starting from a given index. -/
def pyEnumFrom : Nat → List α → List (Nat × α)
  | _, [] => []
  | k, a :: l => (k, a) :: pyEnumFrom (k + 1) l

/-- Python `enumerate`. -/
def pyEnum (l : List α) : List (Nat × α) := pyEnumFrom 0 l

/-- `for i, mat_name in enumerate(mat_list):` fill the column of material `i`;
    `cw = atlas_width // mat_count` is computed once before the loop. -/
def foldCols (W H cw : Nat) (l : List (Nat × Color3)) (b : Nat → ℚ) : Nat → ℚ :=
  l.foldl (fun acc ic => fillColumn ic.2 (columnPositions W H (ic.1 * cw) cw) acc) b

/-- Final pixel buffer of `create_texture_atlas`, as a function from flat
    index to float; the buffer starts as `[0.0] * (W * H * 4)`. -/
def atlasPixels (colors : List Color3) (W H : Nat) : Nat → ℚ :=
  foldCols W H (W / colors.length) (pyEnum colors) (fun _ => 0)

/-- A Blender image datablock as used by the addon: dimensions, pixel buffer
    and the custom property `img["atlas_columns"]`. -/
structure BImage where
  width : Nat
  height : Nat
  pixels : Nat → ℚ
  atlas_columns : Nat

/-- `create_texture_atlas(material_colors, 1024, 256)`: `None` on an empty
    dict, else a `W × H` image whose columns are filled one per material, with
    the number of columns stored in `atlas_columns`.  The dict is modelled as
    an association list; `mat_list = list(material_colors.keys())` together
    with the lookup `material_colors[mat_name]` visits the values in key
    order, i.e. `mc.map Prod.snd`. -/
def create_texture_atlas (mc : List (String × Color3)) (W : Nat := 1024) (H : Nat := 256) :
    Option BImage :=
  if mc.length = 0 then none
  else some { width := W, height := H, pixels := atlasPixels (mc.map Prod.snd) W H,
              atlas_columns := mc.length }

/-- Channel `k` of the colour written for a material: R, G, B, then alpha 1. -/
def channelVal (c : Color3) (k : Nat) : ℚ :=
  if k = 0 then c.1 else if k = 1 then c.2.1 else if k = 2 then c.2.2 else 1

/-- The four flat indices touched when a pixel at base index `q` is filled. -/
def pxBox (q j : Nat) : Prop := j = q ∨ j = q + 1 ∨ j = q + 2 ∨ j = q + 3

theorem fillPixel_of_pxBox (c : Color3) (p k : Nat) (hk : k < 4) (b : Nat → ℚ) :
    fillPixel c p b (p + k) = channelVal c k := by
  interval_cases k <;>
    simp [fillPixel, bufWrite, channelVal]

theorem fillPixel_of_not_pxBox (c : Color3) (p : Nat) (b : Nat → ℚ) (j : Nat)
    (h : ¬ pxBox p j) : fillPixel c p b j = b j := by
  simp only [pxBox, not_or] at h
  simp [fillPixel, bufWrite, h.1, h.2.1, h.2.2.1, h.2.2.2]

theorem fillColumn_frame (c : Color3) (ps : List Nat) (j : Nat)
    (h : ∀ p ∈ ps, ¬ pxBox p j) :
    ∀ b, fillColumn c ps b j = b j := by
  induction ps with
  | nil => intro b; rfl
  | cons p tl ih =>
    intro b
    have hs : fillColumn c (p :: tl) b = fillColumn c tl (fillPixel c p b) := rfl
    rw [hs, ih (fun q hq => h q (List.mem_cons_of_mem _ hq))]
    exact fillPixel_of_not_pxBox c p b j (h p (List.mem_cons_self _ _))

theorem fillColumn_set (c : Color3) (ps : List Nat) (p j k : Nat)
    (hmem : p ∈ ps) (huniq : ∀ q ∈ ps, pxBox q j → q = p)
    (hk : k < 4) (hj : j = p + k) :
    ∀ b, fillColumn c ps b j = channelVal c k := by
  induction ps with
  | nil => cases hmem
  | cons a tl ih =>
    intro b
    have hs : fillColumn c (a :: tl) b = fillColumn c tl (fillPixel c a b) := rfl
    by_cases hptl : p ∈ tl
    · rw [hs]
      exact ih hptl (fun q hq hb => huniq q (List.mem_cons_of_mem _ hq) hb) _
    · have hpa : p = a := by
        rcases List.mem_cons.mp hmem with h | h
        · exact h
        · exact absurd h hptl
      subst hpa
      rw [hs, fillColumn_frame]
      · subst hj; exact fillPixel_of_pxBox c p k hk b
      · intro q hq hbox
        exact hptl (huniq q (List.mem_cons_of_mem _ hq) hbox ▸ hq)

theorem foldCols_frame (W H cw : Nat) (l : List (Nat × Color3)) (j : Nat)
    (h : ∀ ic ∈ l, ∀ q ∈ columnPositions W H (ic.1 * cw) cw, ¬ pxBox q j) :
    ∀ b, foldCols W H cw l b j = b j := by
  induction l with
  | nil => intro b; rfl
  | cons a tl ih =>
    intro b
    have hs : foldCols W H cw (a :: tl) b
        = foldCols W H cw tl (fillColumn a.2 (columnPositions W H (a.1 * cw) cw) b) := rfl
    rw [hs, ih (fun ic hic => h ic (List.mem_cons_of_mem _ hic))]
    exact fillColumn_frame _ _ _ (h a (List.mem_cons_self _ _)) b

theorem foldCols_set (W H cw : Nat) (l : List (Nat × Color3))
    (i : Nat) (c : Color3) (p j k : Nat)
    (hmem : (i, c) ∈ l)
    (hp : p ∈ columnPositions W H (i * cw) cw)
    (huniq : ∀ ic ∈ l, ∀ q ∈ columnPositions W H (ic.1 * cw) cw,
        pxBox q j → ic = (i, c) ∧ q = p)
    (hk : k < 4) (hj : j = p + k) :
    ∀ b, foldCols W H cw l b j = channelVal c k := by
  induction l with
  | nil => cases hmem
  | cons a tl ih =>
    intro b
    have hs : foldCols W H cw (a :: tl) b
        = foldCols W H cw tl (fillColumn a.2 (columnPositions W H (a.1 * cw) cw) b) := rfl
    by_cases htl : (i, c) ∈ tl
    · rw [hs]
      exact ih htl (fun ic hic => huniq ic (List.mem_cons_of_mem _ hic)) _
    · have hac : a = (i, c) := by
        rcases List.mem_cons.mp hmem with h | h
        · exact h.symm
        · exact absurd h htl
      subst hac
      rw [hs, foldCols_frame]
      · rw [fillColumn_set c _ p j k hp _ hk hj]
        intro q hq hbox
        exact (huniq (i, c) (List.mem_cons_self _ _) q hq hbox).2
      · intro ic hic q hq hbox
        have := huniq ic (List.mem_cons_of_mem _ hic) q hq hbox
        exact htl (this.1 ▸ hic)

theorem pyEnumFrom_length (l : List α) : ∀ k, (pyEnumFrom k l).length = l.length := by
  induction l with
  | nil => intro k; rfl
  | cons a tl ih => intro k; simp [pyEnumFrom, ih]

theorem pyEnum_length (l : List α) : (pyEnum l).length = l.length :=
  pyEnumFrom_length l 0

theorem pyEnumFrom_mem {l : List α} : ∀ {k i : Nat} {a : α},
    (i, a) ∈ pyEnumFrom k l → k ≤ i ∧ i - k < l.length ∧ l.get? (i - k) = some a := by
  induction l with
  | nil => intro k i a h; cases h
  | cons hd tl ih =>
    intro k i a h
    rcases List.mem_cons.mp h with h | h
    · have h1 : i = k := congrArg Prod.fst h
      have h2 : a = hd := congrArg Prod.snd h
      subst h1; subst h2
      simp
    · obtain ⟨hk, hlt, hget⟩ := ih h
      refine ⟨by omega, by simp; omega, ?_⟩
      have hik : i - k = (i - (k + 1)) + 1 := by omega
      rw [hik]
      simpa using hget

theorem pyEnum_mem {l : List α} {i : Nat} {a : α}
    (h : (i, a) ∈ pyEnum l) : i < l.length ∧ l.get? i = some a := by
  obtain ⟨_, hlt, hget⟩ := pyEnumFrom_mem h
  simpa using And.intro hlt hget

theorem pyEnumFrom_get_mem (l : List α) : ∀ (k m : Nat) (hm : m < l.length),
    (k + m, l.get ⟨m, hm⟩) ∈ pyEnumFrom k l := by
  induction l with
  | nil => intro k m hm; simp at hm
  | cons hd tl ih =>
    intro k m hm
    cases m with
    | zero => simp [pyEnumFrom]
    | succ m =>
      have : k + (m + 1) = (k + 1) + m := by omega
      rw [this]
      exact List.mem_cons_of_mem _ (ih (k + 1) m (by simpa using hm))

theorem pyEnum_get_mem (l : List α) (i : Nat) (hi : i < l.length) :
    (i, l.get ⟨i, hi⟩) ∈ pyEnum l := by
  have := pyEnumFrom_get_mem l 0 i hi
  simpa [pyEnum] using this

theorem columnPositions_mem {W H xstart cw q : Nat} :
    q ∈ columnPositions W H xstart cw ↔
      ∃ x, x < cw ∧ ∃ y, y < H ∧ atlasPxIndex W xstart x y = q := by
  simp [columnPositions, List.mem_flatMap]

theorem addMulInj {W y a yy aa : Nat} (ha : a < W) (haa : aa < W)
    (h : y * W + a = yy * W + aa) : y = yy ∧ a = aa := by
  have hW : 0 < W := lt_of_le_of_lt (Nat.zero_le a) ha
  have e1 : (y * W + a) / W = y := by
    rw [mul_comm, Nat.mul_add_div hW, Nat.div_eq_of_lt ha, Nat.add_zero]
  have e2 : (yy * W + aa) / W = yy := by
    rw [mul_comm, Nat.mul_add_div hW, Nat.div_eq_of_lt haa, Nat.add_zero]
  have hy : y = yy := by rw [← e1, ← e2, h]
  subst hy
  exact ⟨rfl, by omega⟩

theorem colOffsetLt {n cw W i x : Nat} (hi : i < n) (hx : x < cw)
    (hW : n * cw ≤ W) : i * cw + x < W := by
  have h1 : i * cw + x < (i + 1) * cw := by
    have : (i + 1) * cw = i * cw + cw := by ring
    omega
  have h2 : (i + 1) * cw ≤ n * cw := Nat.mul_le_mul_right cw hi
  omega

/-- Characterisation of the atlas pixel buffer: inside the column of material
    `i`, channel `k` holds channel `k` of that material's colour. -/
theorem atlasPixels_spec (colors : List Color3) (W H : Nat) (i x y k : Nat)
    (hi : i < colors.length) (hx : x < W / colors.length) (hy : y < H) (hk : k < 4) :
    atlasPixels colors W H (atlasPxIndex W (i * (W / colors.length)) x y + k)
      = channelVal (colors.get ⟨i, hi⟩) k := by
  set n := colors.length with hn
  set cw := W / n with hcw
  have hcwpos : 0 < cw := lt_of_le_of_lt (Nat.zero_le x) hx
  have hnW : n * cw ≤ W := by
    rw [hcw, mul_comm]
    exact Nat.div_mul_le_self W n
  have hmem : (i, colors.get ⟨i, hi⟩) ∈ pyEnum colors := pyEnum_get_mem colors i hi
  have hp : atlasPxIndex W (i * cw) x y ∈ columnPositions W H (i * cw) cw :=
    columnPositions_mem.mpr ⟨x, hx, y, hy, rfl⟩
  apply foldCols_set W H cw (pyEnum colors) i (colors.get ⟨i, hi⟩)
      (atlasPxIndex W (i * cw) x y) _ k hmem hp _ hk rfl
  intro ic hic q hq hbox
  obtain ⟨hiclt, hicget⟩ := pyEnum_mem (l := colors) (i := ic.1) (a := ic.2) (by simpa using hic)
  obtain ⟨xx, hxx, yy, hyy, hqeq⟩ := columnPositions_mem.mp hq
  -- the four indices of distinct filled pixels are disjoint
  have hq4 : q = ((yy * W) + (ic.1 * cw + xx)) * 4 := by rw [← hqeq]; rfl
  have hoff1 : ic.1 * cw + xx < W := colOffsetLt hiclt hxx hnW
  have hoff2 : i * cw + x < W := colOffsetLt hi hx hnW
  have hqp : (yy * W) + (ic.1 * cw + xx) = (y * W) + (i * cw + x) := by
    rcases hbox with hb | hb | hb | hb <;>
      · rw [hq4] at hb
        simp only [atlasPxIndex] at hb
        omega
  have hinj := addMulInj hoff1 hoff2 hqp
  have hieq : ic.1 = i ∧ xx = x := by
    have := hinj.2
    exact addMulInj (W := cw) hxx hx this
  have hyeq : yy = y := hinj.1
  have hic1 : ic.1 = i := hieq.1
  have hic2 : ic.2 = colors.get ⟨i, hi⟩ := by
    rw [hic1] at hicget
    have : colors.get? i = some (colors.get ⟨i, hi⟩) := List.get?_eq_get hi
    rw [this] at hicget
    exact (Option.some.injEq _ _ ▸ hicget.symm :)
  constructor
  · exact Prod.ext hic1 hic2
  · rw [hq4, hic1, hieq.2, hyeq]; rfl

/-- A shader node, as far as the addon looks at it: its `type` string and its
    `Color` input (constant default value, and whether a link is attached —
    the addon never checks the link). -/
structure SNode where
  ntype : String
  colorDefault : Color4
  colorLinked : Bool
deriving DecidableEq

/-- A material datablock: name, `use_nodes`, and its node list. -/
structure BMaterial where
  name : String
  use_nodes : Bool
  nodes : List SNode
deriving DecidableEq

/-- A mesh face: its `material_index` and the UVs of its loops. -/
structure Face where
  material_index : Nat
  loops : List (ℚ × ℚ)
deriving DecidableEq

/-- An object in the scene: name, `obj.type`, selection state, its material
    slots (`slot.material` may be `None`; a material reference is modelled by
    its unique name) and its mesh faces. -/
structure BObject where
  name : String
  objType : String
  selected : Bool
  slots : List (Option String)
  faces : List Face
deriving DecidableEq

/-- The state the addon reads and mutates: `bpy.data.materials`, the selected
    scene objects, and the module-global `ORIGINAL_MATERIALS` dict (an
    association list from object name to the stored material list). -/
structure Scene where
  materials : List BMaterial
  objects : List BObject
  originalMaterials : List (String × List (Option String))
deriving DecidableEq

/-- `get_simple_emission_materials()`: every material with `use_nodes` whose
    node list contains an `EMISSION` node contributes its name mapped to the
    first such node's colour default (first three components); the inner loop
    `break`s at the first emission node. -/
def get_simple_emission_materials (mats : List BMaterial) : List (String × Color3) :=
  mats.filterMap (fun m =>
    if m.use_nodes then
      (m.nodes.find? (fun nd => nd.ntype == "EMISSION")).map
        (fun nd => (m.name, (nd.colorDefault.1, nd.colorDefault.2.1, nd.colorDefault.2.2.1)))
    else none)

/-- `mat_index_map`: each gathered material name mapped to its enumeration
    index. -/
def matIndexMapOf (mats : List (String × Color3)) : List (String × Nat) :=
  (pyEnum (mats.map Prod.fst)).map (fun p => (p.2, p.1))

/-- Python dict lookup on an association list (keys are unique). -/
def lookupMap (m : List (String × Nat)) (key : String) : Option Nat :=
  (m.find? (fun p => p.1 == key)).map (fun p => p.2)

/-- The UV assigned by `remap_uvs` to every loop of a face using material `i`:
    `column_width = atlas_width / mat_count` (true division),
    `u_center = (u_min + u_max) * 0.5`, `v_center = 0.5`. -/
def remapUV (i n W : Nat) : ℚ × ℚ :=
  let cw : ℚ := (W : ℚ) / (n : ℚ)
  let uMin : ℚ := ((i : ℚ) * cw) / (W : ℚ)
  let uMax : ℚ := (((i : ℚ) + 1) * cw) / (W : ℚ)
  ((uMin + uMax) * 0.5, 0.5)

/-- The per-face body of `remap_uvs`: a face is retargeted only when its
    `material_index` is a valid slot (`face.material_index <
    len(obj.material_slots)`, subsumed by `get?` returning a value), the slot
    holds a material, and that material's name is in `mat_index_map`; then all
    its loops receive the column-centre UV.  `mat_count = len(mat_index_map)`. -/
def remapFaceUVs (slots : List (Option String)) (m : List (String × Nat)) (W : Nat)
    (f : Face) : Face :=
  match slots.get? f.material_index with
  | some (some nm) =>
    match lookupMap m nm with
    | some i => { f with loops := f.loops.map (fun _ => remapUV i m.length W) }
    | none => f
  | _ => f

/-- `create_atlas_material`: a fresh material named `AtlasMaterial` whose node
    tree is image texture → emission → output; the emission colour input is
    linked (to the texture), its default left at Blender's default. -/
def create_atlas_material : BMaterial :=
  { name := "AtlasMaterial", use_nodes := true,
    nodes := [ { ntype := "TEX_IMAGE", colorDefault := (0, 0, 0, 0), colorLinked := false },
               { ntype := "EMISSION", colorDefault := (1, 1, 1, 1), colorLinked := true },
               { ntype := "OUTPUT_MATERIAL", colorDefault := (0, 0, 0, 0), colorLinked := true } ] }

/-- `create_single_color_emission_material(name, color)`: emission node with
    the colour as default value (alpha 1.0) linked into an output node. -/
def create_single_color_emission_material (nm : String) (c : Color3) : BMaterial :=
  { name := nm, use_nodes := true,
    nodes := [ { ntype := "EMISSION", colorDefault := (c.1, c.2.1, c.2.2, 1), colorLinked := false },
               { ntype := "OUTPUT_MATERIAL", colorDefault := (0, 0, 0, 0), colorLinked := true } ] }

/-- The first emission node's colour default of a material. -/
def emissionColorOf (m : BMaterial) : Option Color4 :=
  (m.nodes.find? (fun nd => nd.ntype == "EMISSION")).map (fun nd => nd.colorDefault)

/-- `ConvertToEmissionAtlas.execute`: gather the simple emission materials
    (CANCELLED when none), build the atlas and the atlas material, clear
    `ORIGINAL_MATERIALS`, then for each selected mesh object store its
    original materials, remap its UVs (with the atlas width) and replace its
    slots by the single atlas material.  The returned flag is `True` for
    FINISHED, `False` for CANCELLED. -/
def convert_execute (s : Scene) : Scene × Bool :=
  let mats := get_simple_emission_materials s.materials
  if mats.isEmpty then (s, false)
  else
    match create_texture_atlas mats 1024 256 with
    | none => (s, false)
    | some atlas =>
      let m := matIndexMapOf mats
      let atlasMat := create_atlas_material
      let objs := s.objects.map (fun o =>
        if o.selected && o.objType == "MESH" then
          { o with faces := o.faces.map (remapFaceUVs o.slots m atlas.width),
                   slots := [some atlasMat.name] }
        else o)
      let orig := (s.objects.filter (fun o => o.selected && o.objType == "MESH")).map
        (fun o => (o.name, o.slots))
      ({ materials := s.materials ++ [atlasMat], objects := objs,
         originalMaterials := orig }, true)

/-- Dict lookup in `ORIGINAL_MATERIALS`. -/
def lookupOrig (m : List (String × List (Option String))) (key : String) :
    Option (List (Option String)) :=
  (m.find? (fun p => p.1 == key)).map (fun p => p.2)

/-- Re-adding the stored originals: empty slots (`None`) are dropped and a
    stored material is re-appended only if a material of that name still
    exists in `bpy.data.materials`. -/
def restoreMats (mats : List BMaterial) (l : List (Option String)) : List (Option String) :=
  l.filterMap (fun om => om.bind (fun nm =>
    if mats.any (fun m => m.name == nm) then some (some nm) else none))

/-- `RevertEmissionAtlas.execute`: CANCELLED when `ORIGINAL_MATERIALS` is
    empty; otherwise each selected object whose name is stored gets, if it is
    a mesh, its slots replaced by the restorable stored materials. -/
def revert_execute (s : Scene) : Scene × Bool :=
  if s.originalMaterials.isEmpty then (s, false)
  else
    ({ s with objects := s.objects.map (fun o =>
        if o.selected then
          match lookupOrig s.originalMaterials o.name with
          | some l => if o.objType == "MESH" then { o with slots := restoreMats s.materials l } else o
          | none => o
        else o) }, true)

/-- Decimal digit character. -/
def digitChar (n : Nat) : Char := Char.ofNat (48 + n)

/-- Decimal digits of `n`, with enough fuel to terminate. -/
def natReprAux : Nat → Nat → List Char
  | 0, _ => []
  | fuel + 1, n => if n < 10 then [digitChar n] else natReprAux fuel (n / 10) ++ [digitChar (n % 10)]

/-- Python `str` of a non-negative integer. -/
def natRepr (n : Nat) : String := ⟨natReprAux (n + 1) n⟩

/-- `columns = int(atlas_image.get("atlas_columns", 1)); if columns < 1:
    columns = 1`. -/
def unpackColumns (img : BImage) : Nat := max img.atlas_columns 1

/-- `center_x = int((i + 0.5) * column_width)` with
    `column_width = atlas_width // columns`; the value is non-negative so
    `int` truncation is the floor. -/
def unpackCenterX (W columns i : Nat) : Nat :=
  ⌊((i : ℚ) + 0.5) * ((W / columns : Nat) : ℚ)⌋₊

/-- The RGB triple sampled by the Unpack operator for column `i`:
    `center_y = atlas_height // 2`,
    `px_index = ((center_y * atlas_width) + center_x) * 4`. -/
def unpackSampledColor (img : BImage) (i : Nat) : Color3 :=
  let px := (((img.height / 2) * img.width) + unpackCenterX img.width (unpackColumns img) i) * 4
  (img.pixels px, img.pixels (px + 1), img.pixels (px + 2))

/-- `mat_name = f"UnpackedAtlasColor_{i}"`. -/
def unpackName (i : Nat) : String := "UnpackedAtlasColor_" ++ natRepr i

/-- The material used for column `i` by the Unpack operator: an existing
    material of that name is reused as-is, otherwise a fresh single-colour
    emission material is created from the sampled pixel. -/
def unpackMatFor (ex : List BMaterial) (img : BImage) (i : Nat) : BMaterial :=
  match ex.find? (fun m => m.name == unpackName i) with
  | some m => m
  | none => create_single_color_emission_material (unpackName i) (unpackSampledColor img i)

/-- `new_mats`, the materials appended (in column order) to each unpacked
    object's cleared slot list. -/
def unpackNewMats (ex : List BMaterial) (img : BImage) : List BMaterial :=
  (List.range (unpackColumns img)).map (unpackMatFor ex img)

/-- The clamped pixel x-coordinate of a face's first-loop UV in the Unpack
    operator: `x_pix = uv.x * atlas_width`, clamped to `[0, atlas_width - 1]`. -/
def unpackXPix (u : ℚ) (W : Nat) : ℚ :=
  let x := u * (W : ℚ)
  if x < 0 then 0 else if (W : ℚ) ≤ x then (W : ℚ) - 1 else x

/-- The column index the Unpack operator assigns to a face:
    `col_index = int(x_pix // column_width_float)` with
    `column_width_float = float(atlas_width) / columns`, then clamped to
    `[0, columns - 1]`. -/
def unpackColIndex (u : ℚ) (W columns : Nat) : ℤ :=
  let c := ⌊unpackXPix u W / ((W : ℚ) / (columns : ℚ))⌋
  if c < 0 then 0 else if (columns : ℤ) ≤ c then (columns : ℤ) - 1 else c

/-- The texel a UV coordinate in `[0, 1)` samples under nearest filtering:
    pixel column `⌊u * width⌋` (and analogously for rows). -/
def uvTexel (u : ℚ) (size : Nat) : Nat := ⌊u * (size : ℚ)⌋₊

/-- Does the character list `p` begin the character list `s`? -/
def listStarts : List Char → List Char → Bool
  | [], _ => true
  | _ :: _, [] => false
  | p :: ps, c :: cs => p = c && listStarts ps cs

/-- Python `s.startswith(pre)`. -/
def strStarts (s pre : String) : Bool := listStarts pre.data s.data

/-- Python `s.split(sep)` for a single-character separator, on char lists. -/
def splitChars (sep : Char) : List Char → List (List Char)
  | [] => [[]]
  | c :: cs =>
    let r := splitChars sep cs
    if c = sep then [] :: r
    else
      match r with
      | [] => [[c]]
      | h :: t => (c :: h) :: t

/-- Python `s.split(sep)` for a single-character separator. -/
def pySplit (s : String) (sep : Char) : List String :=
  (splitChars sep s.data).map (fun l => ⟨l⟩)

/-- Digit value of a character, `None` if not a decimal digit. -/
def charDigit (c : Char) : Option Nat :=
  if 48 ≤ c.toNat ∧ c.toNat ≤ 57 then some (c.toNat - 48) else none

def parseNatAux : List Char → Nat → Option Nat
  | [], acc => some acc
  | c :: cs, acc =>
    match charDigit c with
    | some d => parseNatAux cs (acc * 10 + d)
    | none => none

/-- Python `int(s)` for the decimal strings appearing in version numbers;
    `None` models the `ValueError` raised on non-numeric input. -/
def parseNat (s : String) : Option Nat :=
  if s.data.isEmpty then none else parseNatAux s.data 0

/-- Python dot-join of the version parts. -/
def joinDots : List String → String
  | [] => ""
  | [a] => a
  | a :: rest => a ++ "." ++ joinDots rest

/-- `increment_version`: `None` becomes `"0.0.1"`; otherwise the last
    dot-separated part is parsed as an integer (a `None` result models the
    `ValueError` crash) and incremented. -/
def incrementVersion : Option String → Option String
  | none => some "0.0.1"
  | some v =>
    let parts := pySplit v '.'
    match parseNat ((parts.getLast?).getD "") with
    | none => none
    | some k => some (joinDots (parts.dropLast ++ [natRepr (k + 1)]))

/-- The command-line flags accumulated by `main`'s argument loop. -/
structure ParsedArgs where
  asZip : Bool
  targetBlender : Option String
  version : Option String
deriving DecidableEq

/-- One iteration of the argument loop: `--as-zip` sets the flag, and the two
    `--x=y` options store the piece after the first separator, Python `split` index 1. -/
def parseArg (st : ParsedArgs) (arg : String) : ParsedArgs :=
  if arg == "--as-zip" then { st with asZip := true }
  else if strStarts arg "--target-blender=" then
    { st with targetBlender := some (((pySplit arg '=').get? 1).getD "") }
  else if strStarts arg "--version=" then
    { st with version := some (((pySplit arg '=').get? 1).getD "") }
  else st

def parseArgs (args : List String) : ParsedArgs :=
  args.foldl parseArg ⟨false, none, none⟩

/-- What `get_blender_version` and `get_version` extract from
    the `bl_info` dict of `emission_atlas.py` (`None` on a parse failure). -/
structure ScriptInfo where
  blenderVersion : Option String
  version : Option String

/-- Resolution of the target Blender version: the flag wins, else the value
    from `bl_info`; `None` is the early error return. -/
def resolveTargetBlender (args : List String) (info : ScriptInfo) : Option String :=
  match (parseArgs args).targetBlender with
  | some t => some t
  | none => info.blenderVersion

/-- Resolution of the addon version: the flag wins, else the incremented
    `bl_info` version. -/
def resolveVersion (args : List String) (info : ScriptInfo) : Option String :=
  match (parseArgs args).version with
  | some v => some v
  | none => incrementVersion info.version

/-- Observable outcome of `main`: the zip name, the files copied into the
    freshly re-created staging folder, whether a zip was built and from which
    files, and whether the staging folder still exists at the end. -/
structure BuildResult where
  zipName : String
  stagedFiles : List String
  madeZip : Bool
  zipContents : List String
  folderExists : Bool
deriving DecidableEq

/-- The files copied into the staging folder: the addon script always,
    `LICENSE` and `README.md` when present. -/
def stagedList (hasLicense hasReadme : Bool) : List String :=
  ["emission_atlas.py"] ++ (if hasLicense then ["LICENSE"] else [])
    ++ (if hasReadme then ["README.md"] else [])

/-- `main()` of package_release.py: parse flags, resolve the two versions
    (`None` models the error return and the `ValueError` crash), stage the
    files, and either zip the staged files and delete the folder (`--as-zip`)
    or leave the folder. -/
def packageMain (args : List String) (info : ScriptInfo) (hasLicense hasReadme : Bool) :
    Option BuildResult :=
  match resolveTargetBlender args info with
  | none => none
  | some tb =>
    match resolveVersion args info with
    | none => none
    | some v =>
      let zipName := "emission_atlas_" ++ v ++ "_blender_" ++ tb ++ ".zip"
      let staged := stagedList hasLicense hasReadme
      if (parseArgs args).asZip then
        some { zipName := zipName, stagedFiles := staged, madeZip := true,
               zipContents := staged, folderExists := false }
      else
        some { zipName := zipName, stagedFiles := staged, madeZip := false,
               zipContents := [], folderExists := true }

/-- C9: in `create_texture_atlas`, for a non-empty material dict, every flat
    pixel-buffer index written — `px_index + 3` for column `i < n`, column
    offset `x < atlas_width // n`, row `y < atlas_height` — is strictly below
    the buffer size `atlas_width * atlas_height * 4`. -/
theorem spec_c9 (mc : List (String × Color3)) (W H : Nat) (hn : 1 ≤ mc.length)
    (i x y : Nat) (hi : i < mc.length) (hx : x < W / mc.length) (hy : y < H) :
    atlasPxIndex W (i * (W / mc.length)) x y + 3 < W * H * 4 := by
  have hnW : mc.length * (W / mc.length) ≤ W := by
    rw [mul_comm]; exact Nat.div_mul_le_self W mc.length
  have ha : i * (W / mc.length) + x < W := colOffsetLt hi hx hnW
  have hrow : y * W + (i * (W / mc.length) + x) < H * W := by
    have h1 : y * W + (i * (W / mc.length) + x) < (y + 1) * W := by
      have : (y + 1) * W = y * W + W := by ring
      omega
    have h2 : (y + 1) * W ≤ H * W := Nat.mul_le_mul_right W hy
    omega
  have hWH : W * H * 4 = (H * W) * 4 := by ring
  rw [atlasPxIndex, hWH]
  omega

/-- C9 witness: the bound at a concrete input. -/
theorem spec_c9_witness :
    1 ≤ ([("R", ((1 : ℚ), 0, 0)), ("G", ((0 : ℚ), 1, 0))] : List (String × Color3)).length ∧
    1 < ([("R", ((1 : ℚ), 0, 0)), ("G", ((0 : ℚ), 1, 0))] : List (String × Color3)).length ∧
    3 < 1024 / 2 ∧ 255 < 256 ∧
    atlasPxIndex 1024 (1 * (1024 / 2)) 3 255 + 3 < 1024 * 256 * 4 :=
  ⟨by decide, by decide, by decide, by decide,
    spec_c9 [("R", ((1 : ℚ), 0, 0)), ("G", ((0 : ℚ), 1, 0))] 1024 256 (by decide)
      1 3 255 (by decide) (by decide) (by decide)⟩

/-- C10: the Unpack operator's column computation always lands in
    `[0, columns)` — for any first-loop UV, including coordinates outside
    `[0, 1]` — and the slot list it assigns to the object has exactly
    `columns` entries. -/
theorem spec_c10 (u : ℚ) (W n : Nat) (hn : 1 ≤ n) :
    (0 ≤ unpackColIndex u W n ∧ unpackColIndex u W n < n) ∧
    ∀ (ex : List BMaterial) (img : BImage), unpackColumns img = n →
      (unpackNewMats ex img).length = n := by
  constructor
  · have key : ∀ c : ℤ,
        0 ≤ (if c < 0 then (0 : ℤ) else if (n : ℤ) ≤ c then (n : ℤ) - 1 else c) ∧
        (if c < 0 then (0 : ℤ) else if (n : ℤ) ≤ c then (n : ℤ) - 1 else c) < n := by
      intro c
      split_ifs <;> omega
    exact key ⌊unpackXPix u W / ((W : ℚ) / (n : ℚ))⌋
  · intro ex img h
    simp [unpackNewMats, h]

/-- C10 witness: a UV far outside `[0,1]` still maps into `[0, 3)`, and the
    slot count matches the column count. -/
theorem spec_c10_witness :
    1 ≤ 3 ∧
    ((0 ≤ unpackColIndex (-5) 1024 3 ∧ unpackColIndex (-5) 1024 3 < 3) ∧
      ∀ (ex : List BMaterial) (img : BImage), unpackColumns img = 3 →
        (unpackNewMats ex img).length = 3) :=
  ⟨by decide, spec_c10 (-5) 1024 3 (by decide)⟩

theorem remapUV_eq (i n W : Nat) (hn : 1 ≤ n) (hW : 1 ≤ W) :
    remapUV i n W = (((i : ℚ) + 1 / 2) / (n : ℚ), 1 / 2) := by
  have hnq : (n : ℚ) ≠ 0 := by
    exact_mod_cast Nat.pos_iff_ne_zero.mp hn
  have hWq : (W : ℚ) ≠ 0 := by
    exact_mod_cast Nat.pos_iff_ne_zero.mp hW
  show ((((i : ℚ) * ((W : ℚ) / (n : ℚ))) / (W : ℚ)
      + (((i : ℚ) + 1) * ((W : ℚ) / (n : ℚ))) / (W : ℚ)) * 0.5, (0.5 : ℚ))
    = (((i : ℚ) + 1 / 2) / (n : ℚ), 1 / 2)
  rw [Prod.mk.injEq]
  constructor
  · rw [show (0.5 : ℚ) = 1 / 2 by norm_num]
    field_simp
    ring
  · norm_num

theorem floor_add_half (i : Nat) : ⌊(i : ℚ) + 1 / 2⌋ = (i : ℤ) := by
  rw [show ((i : ℚ) + 1 / 2) = ((i : ℤ) : ℚ) + 1 / 2 by push_cast; ring]
  rw [Int.floor_int_add]
  norm_num

/-- C2: round trip of face classification — a first-loop UV set by
    `remap_uvs` to the centre of column `i` of an `n`-column atlas of width
    `W` is mapped by the Unpack operator's pixel computation back to column
    index `i`, and slot `i` of the material list the operator assigns holds
    the material regenerated for column `i`. -/
theorem spec_c2 (n i W : Nat) (hn : 1 ≤ n) (hi : i < n) (hW : 1 ≤ W) :
    unpackColIndex ((remapUV i n W).1) W n = (i : ℤ) ∧
    ∀ (ex : List BMaterial) (img : BImage), unpackColumns img = n →
      (unpackNewMats ex img).get? i = some (unpackMatFor ex img i) := by
  have hnq : (0 : ℚ) < (n : ℚ) := by exact_mod_cast hn
  have hWq : (0 : ℚ) < (W : ℚ) := by exact_mod_cast hW
  have hu : (remapUV i n W).1 = ((i : ℚ) + 1 / 2) / (n : ℚ) := by
    rw [remapUV_eq i n W hn hW]
  constructor
  · have hx : unpackXPix ((remapUV i n W).1) W = (((i : ℚ) + 1 / 2) / (n : ℚ)) * (W : ℚ) := by
      rw [unpackXPix, hu]
      have h0 : ¬ ((((i : ℚ) + 1 / 2) / (n : ℚ)) * (W : ℚ) < 0) := by
        push_neg
        positivity
      have h1 : ¬ ((W : ℚ) ≤ (((i : ℚ) + 1 / 2) / (n : ℚ)) * (W : ℚ)) := by
        push_neg
        have hlt : ((i : ℚ) + 1 / 2) / (n : ℚ) < 1 := by
          rw [div_lt_one hnq]
          have : (i : ℚ) + 1 ≤ (n : ℚ) := by exact_mod_cast hi
          linarith
        calc (((i : ℚ) + 1 / 2) / (n : ℚ)) * (W : ℚ) < 1 * (W : ℚ) :=
              mul_lt_mul_of_pos_right hlt hWq
          _ = (W : ℚ) := one_mul _
      simp only [h0, if_neg, h1, if_false]
    have hdiv : unpackXPix ((remapUV i n W).1) W / ((W : ℚ) / (n : ℚ)) = (i : ℚ) + 1 / 2 := by
      rw [hx]
      field_simp
      ring
    rw [unpackColIndex]
    simp only [hdiv, floor_add_half]
    have h2 : ¬ ((i : ℤ) < 0) := by omega
    have h3 : ¬ ((n : ℤ) ≤ (i : ℤ)) := by exact_mod_cast Nat.not_le.mpr hi
    simp [h2, h3]
  · intro ex img h
    simp [unpackNewMats, h, List.getElem?_range hi]

/-- C2 witness: an atlas of 4 columns, column 2, width 1024. -/
theorem spec_c2_witness :
    1 ≤ 4 ∧ 2 < 4 ∧ 1 ≤ 1024 ∧
    (unpackColIndex ((remapUV 2 4 1024).1) 1024 4 = (2 : ℤ) ∧
      ∀ (ex : List BMaterial) (img : BImage), unpackColumns img = 4 →
        (unpackNewMats ex img).get? 2 = some (unpackMatFor ex img 2)) :=
  ⟨by decide, by decide, by decide, spec_c2 4 2 1024 (by decide) (by decide) (by decide)⟩

theorem parseArg_asZip_mono (st : ParsedArgs) (a : String) (h : st.asZip = true) :
    (parseArg st a).asZip = true := by
  unfold parseArg
  split_ifs <;> simp [h]

theorem foldl_parseArg_asZip (args : List String) :
    ∀ st : ParsedArgs, st.asZip = true → (args.foldl parseArg st).asZip = true := by
  induction args with
  | nil => intro st h; exact h
  | cons a tl ih =>
    intro st h
    exact ih (parseArg st a) (parseArg_asZip_mono st a h)

theorem parseArgs_asZip_of_mem (args : List String) (h : "--as-zip" ∈ args) :
    (parseArgs args).asZip = true := by
  unfold parseArgs
  generalize hst : (⟨false, none, none⟩ : ParsedArgs) = st
  clear hst
  induction args generalizing st with
  | nil => cases h
  | cons a tl ih =>
    rcases List.mem_cons.mp h with ha | ha
    · subst ha
      exact foldl_parseArg_asZip tl (parseArg st "--as-zip") (by simp [parseArg])
    · exact ih ha (parseArg st a)

/-- C8: with `--as-zip`, `main()` produces a zip named
    `emission_atlas_{version}_blender_{target_blender}.zip` containing exactly
    the files staged (the addon script, plus LICENSE and README.md when
    present) and removes the staging folder. -/
theorem spec_c8 (args : List String) (info : ScriptInfo) (hasLicense hasReadme : Bool)
    (h : "--as-zip" ∈ args) (tb v : String)
    (htb : resolveTargetBlender args info = some tb)
    (hv : resolveVersion args info = some v) :
    packageMain args info hasLicense hasReadme =
      some { zipName := "emission_atlas_" ++ v ++ "_blender_" ++ tb ++ ".zip",
             stagedFiles := stagedList hasLicense hasReadme, madeZip := true,
             zipContents := stagedList hasLicense hasReadme, folderExists := false } := by
  unfold packageMain
  rw [htb, hv]
  simp [parseArgs_asZip_of_mem args h]

/-- C8 witness: a concrete invocation with all three flags. -/
theorem spec_c8_witness :
    "--as-zip" ∈ ["--as-zip", "--target-blender=4.1.1", "--version=1.3"] ∧
    resolveTargetBlender ["--as-zip", "--target-blender=4.1.1", "--version=1.3"]
      ⟨none, none⟩ = some "4.1.1" ∧
    resolveVersion ["--as-zip", "--target-blender=4.1.1", "--version=1.3"]
      ⟨none, none⟩ = some "1.3" ∧
    packageMain ["--as-zip", "--target-blender=4.1.1", "--version=1.3"]
      ⟨none, none⟩ true true =
      some { zipName := "emission_atlas_" ++ "1.3" ++ "_blender_" ++ "4.1.1" ++ ".zip",
             stagedFiles := stagedList true true, madeZip := true,
             zipContents := stagedList true true, folderExists := false } :=
  ⟨by decide, by decide, by decide,
    spec_c8 ["--as-zip", "--target-blender=4.1.1", "--version=1.3"] ⟨none, none⟩ true true
      (by decide) "4.1.1" "1.3" (by decide) (by decide)⟩

theorem atlasPixels_spec2 (colors : List Color3) (W H n : Nat) (hn : colors.length = n)
    (i x y k : Nat) (hi : i < n) (hx : x < W / n) (hy : y < H) (hk : k < 4) (c : Color3)
    (hc : colors.get? i = some c) :
    atlasPixels colors W H (atlasPxIndex W (i * (W / n)) x y + k) = channelVal c k := by
  subst hn
  have hspec := atlasPixels_spec colors W H i x y k hi hx hy hk
  have hg : colors.get? i = some (colors.get ⟨i, hi⟩) := List.get?_eq_get hi
  rw [hg] at hc
  rw [hspec, Option.some_inj.mp hc]

/-- C4: the atlas built by `create_texture_atlas` from `n ≥ 1` materials is a
    fixed single-row layout: every pixel whose x-coordinate lies in
    `[i * (atlas_width // n), (i + 1) * (atlas_width // n))`, at any row,
    holds material `i`'s RGB with alpha `1.0` (channels `k = 0,1,2,3`), and
    the image records `n` in `atlas_columns`. -/
theorem spec_c4 (mc : List (String × Color3)) (W H : Nat) (hn : 1 ≤ mc.length)
    (i xg y k : Nat) (hi : i < mc.length)
    (hx1 : i * (W / mc.length) ≤ xg) (hx2 : xg < (i + 1) * (W / mc.length))
    (hy : y < H) (hk : k < 4) (img : BImage)
    (himg : create_texture_atlas mc W H = some img) :
    img.pixels ((y * W + xg) * 4 + k) = channelVal (mc.get ⟨i, hi⟩).2 k ∧
    img.atlas_columns = mc.length := by
  have hne : ¬ (mc.length = 0) := by omega
  rw [create_texture_atlas, if_neg hne] at himg
  cases himg
  have hcwadd : (i + 1) * (W / mc.length) = i * (W / mc.length) + W / mc.length := by ring
  have hxlt : xg - i * (W / mc.length) < W / mc.length := by omega
  constructor
  · have hidx : (y * W + xg) * 4 + k
        = atlasPxIndex W (i * (W / mc.length)) (xg - i * (W / mc.length)) y + k := by
      rw [atlasPxIndex]
      omega
    have hc : (mc.map Prod.snd).get? i = some (mc.get ⟨i, hi⟩).2 := by
      have hg : mc.get? i = some (mc.get ⟨i, hi⟩) := List.get?_eq_get hi
      simp only [List.get?_eq_getElem?] at hg ⊢
      simp [List.getElem?_map, hg]
    rw [hidx]
    exact atlasPixels_spec2 (mc.map Prod.snd) W H mc.length (List.length_map _ _) i
      (xg - i * (W / mc.length)) y k hi hxlt hy hk _ hc
  · rfl

/-- A concrete two-material dict used as a witness input. -/
def mcPair : List (String × Color3) := [("R", (1, 0, 0)), ("G", (0, 1, 0))]

/-- The atlas image `create_texture_atlas` builds from `mcPair`. -/
def imgPair : BImage :=
  { width := 1024, height := 256, pixels := atlasPixels (mcPair.map Prod.snd) 1024 256,
    atlas_columns := mcPair.length }

/-- C4 witness: pixel x = 512 of row 0 lies in column 1 of the two-material
    atlas and holds that material's red channel. -/
theorem spec_c4_witness :
    1 ≤ mcPair.length ∧ 1 < mcPair.length ∧
    1 * (1024 / mcPair.length) ≤ 512 ∧ 512 < (1 + 1) * (1024 / mcPair.length) ∧
    0 < 256 ∧ 0 < 4 ∧ create_texture_atlas mcPair 1024 256 = some imgPair ∧
    (imgPair.pixels ((0 * 1024 + 512) * 4 + 0) = channelVal (mcPair.get ⟨1, by decide⟩).2 0 ∧
      imgPair.atlas_columns = mcPair.length) :=
  ⟨by decide, by decide, by decide, by decide, by decide, by decide, rfl,
    spec_c4 mcPair 1024 256 (by decide) 1 512 0 0 (by decide) (by decide) (by decide)
      (by decide) (by decide) imgPair rfl⟩

theorem unpackCenterX_eq (W columns i : Nat) :
    unpackCenterX W columns i = i * (W / columns) + (W / columns) / 2 := by
  unfold unpackCenterX
  rw [show (0.5 : ℚ) = 1 / 2 by norm_num]
  have h05 : ((i : ℚ) + 1 / 2) * ((W / columns : Nat) : ℚ)
      = (((2 * i + 1) * (W / columns) : Nat) : ℚ) / ((2 : Nat) : ℚ) := by
    push_cast
    ring
  rw [h05, Nat.floor_div_nat, Nat.floor_natCast]
  have hsplit : (2 * i + 1) * (W / columns) = 2 * (i * (W / columns)) + (W / columns) := by ring
  omega

theorem unpackSampledColor_def (img : BImage) (i : Nat) :
    unpackSampledColor img i =
      (img.pixels ((((img.height / 2) * img.width)
          + unpackCenterX img.width (unpackColumns img) i) * 4),
       img.pixels ((((img.height / 2) * img.width)
          + unpackCenterX img.width (unpackColumns img) i) * 4 + 1),
       img.pixels ((((img.height / 2) * img.width)
          + unpackCenterX img.width (unpackColumns img) i) * 4 + 2)) := rfl

/-- C5 (amended): for an atlas produced by `create_texture_atlas` from
    `n ≥ 1` materials with `n ≤ atlas_width` (so that each column is at least
    one pixel wide), the colour the Unpack operator samples for column `i` —
    the pixel at `x = int((i + 0.5) * (atlas_width // n))`,
    `y = atlas_height // 2` — equals the `i`-th original material's RGB, and
    (when no material already bears the `UnpackedAtlasColor_i` name, which
    would be reused as-is) the regenerated material's emission colour is that
    sampled RGB with alpha 1. -/
theorem spec_c5 (mc : List (String × Color3)) (W H : Nat)
    (hn : 1 ≤ mc.length) (hnW : mc.length ≤ W) (hH : 1 ≤ H)
    (i : Nat) (hi : i < mc.length) (img : BImage)
    (himg : create_texture_atlas mc W H = some img)
    (ex : List BMaterial) (hex : ex.find? (fun m => m.name == unpackName i) = none) :
    unpackSampledColor img i = (mc.get ⟨i, hi⟩).2 ∧
    emissionColorOf (unpackMatFor ex img i)
      = some ((unpackSampledColor img i).1, (unpackSampledColor img i).2.1,
              (unpackSampledColor img i).2.2, 1) := by
  have hne : ¬ (mc.length = 0) := by omega
  rw [create_texture_atlas, if_neg hne] at himg
  cases himg
  have hsample : unpackSampledColor
      { width := W, height := H, pixels := atlasPixels (mc.map Prod.snd) W H,
        atlas_columns := mc.length } i = (mc.get ⟨i, hi⟩).2 := by
    rw [unpackSampledColor_def]
    have hmax : unpackColumns
        { width := W, height := H, pixels := atlasPixels (mc.map Prod.snd) W H,
          atlas_columns := mc.length } = mc.length := by
      simp [unpackColumns, Nat.max_eq_left hn]
    have hcw1 : 1 ≤ W / mc.length := (Nat.one_le_div_iff (by omega)).mpr hnW
    have hy2 : H / 2 < H := Nat.div_lt_self (by omega) one_lt_two
    have hx2 : (W / mc.length) / 2 < W / mc.length := Nat.div_lt_self (by omega) one_lt_two
    have hc : (mc.map Prod.snd).get? i = some (mc.get ⟨i, hi⟩).2 := by
      have hg : mc.get? i = some (mc.get ⟨i, hi⟩) := List.get?_eq_get hi
      simp only [List.get?_eq_getElem?] at hg ⊢
      simp [List.getElem?_map, hg]
    have hidx : (((H / 2) * W) + (i * (W / mc.length) + (W / mc.length) / 2)) * 4
        = atlasPxIndex W (i * (W / mc.length)) ((W / mc.length) / 2) (H / 2) := rfl
    have h0 := atlasPixels_spec2 (mc.map Prod.snd) W H mc.length (List.length_map _ _) i
      ((W / mc.length) / 2) (H / 2) 0 hi hx2 hy2 (by omega) _ hc
    have h1 := atlasPixels_spec2 (mc.map Prod.snd) W H mc.length (List.length_map _ _) i
      ((W / mc.length) / 2) (H / 2) 1 hi hx2 hy2 (by omega) _ hc
    have h2 := atlasPixels_spec2 (mc.map Prod.snd) W H mc.length (List.length_map _ _) i
      ((W / mc.length) / 2) (H / 2) 2 hi hx2 hy2 (by omega) _ hc
    simp only [Nat.add_zero] at h0
    simp only [hmax, unpackCenterX_eq, hidx]
    show (atlasPixels (mc.map Prod.snd) W H
        (atlasPxIndex W (i * (W / mc.length)) ((W / mc.length) / 2) (H / 2)),
      atlasPixels (mc.map Prod.snd) W H
        (atlasPxIndex W (i * (W / mc.length)) ((W / mc.length) / 2) (H / 2) + 1),
      atlasPixels (mc.map Prod.snd) W H
        (atlasPxIndex W (i * (W / mc.length)) ((W / mc.length) / 2) (H / 2) + 2))
      = (mc.get ⟨i, hi⟩).2
    rw [h0, h1, h2]
    simp [channelVal]
  refine ⟨hsample, ?_⟩
  have hmat : unpackMatFor ex
      { width := W, height := H, pixels := atlasPixels (mc.map Prod.snd) W H,
        atlas_columns := mc.length } i
      = create_single_color_emission_material (unpackName i)
          (unpackSampledColor
            { width := W, height := H, pixels := atlasPixels (mc.map Prod.snd) W H,
              atlas_columns := mc.length } i) := by
    rw [unpackMatFor, hex]
  rw [hmat]
  rfl

/-- 1025 white materials: more materials than the default atlas width 1024,
    so each column is `1024 // 1025 = 0` pixels wide and nothing is filled. -/
def c5mats : List (String × Color3) :=
  (List.range 1025).map (fun j => (natRepr j, ((1 : ℚ), 1, 1)))

/-- C5 counterexample: for the atlas built from 1025 white materials the
    Unpack operator samples `(0, 0, 0)` for column 0 — the never-written
    buffer default — which differs from the original material's `(1, 1, 1)`. -/
theorem spec_c5_cex :
    (create_texture_atlas c5mats 1024 256).map (fun img => unpackSampledColor img 0)
      = some ((0 : ℚ), 0, 0) ∧
    (c5mats.get? 0).map Prod.snd = some ((1 : ℚ), 1, 1) ∧
    ((0 : ℚ), (0 : ℚ), (0 : ℚ)) ≠ ((1 : ℚ), (1 : ℚ), (1 : ℚ)) := by
  have hlen : c5mats.length = 1025 := by simp [c5mats]
  have hne : ¬ (c5mats.length = 0) := by rw [hlen]; omega
  have hframe : ∀ j, atlasPixels (c5mats.map Prod.snd) 1024 256 j = 0 := by
    intro j
    unfold atlasPixels
    have hlen2 : (c5mats.map Prod.snd).length = 1025 := by simp [c5mats]
    rw [hlen2]
    have hcw : (1024 : Nat) / 1025 = 0 := Nat.div_eq_of_lt (by omega)
    rw [hcw]
    apply foldCols_frame
    intro ic hic q hq
    have hnil : columnPositions 1024 256 (ic.1 * 0) 0 = [] := rfl
    rw [hnil] at hq
    exact absurd hq (List.not_mem_nil q)
  refine ⟨?_, ?_, by decide⟩
  · rw [create_texture_atlas, if_neg hne, Option.map_some', unpackSampledColor_def]
    simp [hframe]
  · simp only [c5mats, List.get?_eq_getElem?, List.getElem?_map,
      List.getElem?_range (by omega : (0 : Nat) < 1025)]
    rfl

/-- C5 witness: both materials of the two-colour atlas round-trip. -/
theorem spec_c5_witness :
    1 ≤ mcPair.length ∧ mcPair.length ≤ 1024 ∧ 1 ≤ 256 ∧ 0 < mcPair.length ∧
    create_texture_atlas mcPair 1024 256 = some imgPair ∧
    ([] : List BMaterial).find? (fun m => m.name == unpackName 0) = none ∧
    (unpackSampledColor imgPair 0 = (mcPair.get ⟨0, by decide⟩).2 ∧
      emissionColorOf (unpackMatFor [] imgPair 0)
        = some ((unpackSampledColor imgPair 0).1, (unpackSampledColor imgPair 0).2.1,
                (unpackSampledColor imgPair 0).2.2, 1)) :=
  ⟨by decide, by decide, by decide, by decide, rfl, rfl,
    spec_c5 mcPair 1024 256 (by decide) (by decide) (by decide) 0 (by decide) imgPair rfl
      [] rfl⟩

theorem matIndexMapOf_length (mats : List (String × Color3)) :
    (matIndexMapOf mats).length = mats.length := by
  simp [matIndexMapOf, pyEnum, pyEnumFrom_length]

/-- Region bounds for the column-centre texel: under
    `n * (1024 % n) < 512` the texel `⌊((i + 1/2) / n) * 1024⌋` lies in
    `[i * (1024 // n), (i + 1) * (1024 // n))`. -/
theorem centerTexel_bounds (n i : Nat) (hn : 1 ≤ n) (hi : i < n)
    (hcond : n * (1024 % n) < 512) :
    i * (1024 / n) ≤ uvTexel (((i : ℚ) + 1 / 2) / (n : ℚ)) 1024 ∧
    uvTexel (((i : ℚ) + 1 / 2) / (n : ℚ)) 1024 < (i + 1) * (1024 / n) := by
  have hnq : (0 : ℚ) < (n : ℚ) := by exact_mod_cast hn
  have key : n * (1024 / n) + 1024 % n = 1024 := Nat.div_add_mod 1024 n
  have hu0 : (0 : ℚ) ≤ (((i : ℚ) + 1 / 2) / (n : ℚ)) * 1024 := by positivity
  constructor
  · apply Nat.le_floor
    rw [div_mul_eq_mul_div, le_div_iff hnq]
    have hncw : (n : ℚ) * ((1024 / n : Nat) : ℚ) ≤ 1024 := by
      have h : n * (1024 / n) ≤ 1024 := by omega
      exact_mod_cast h
    have hi0 : (0 : ℚ) ≤ (i : ℚ) := by positivity
    push_cast
    nlinarith [mul_le_mul_of_nonneg_left hncw hi0]
  · rw [uvTexel]
    push_cast
    rw [Nat.floor_lt hu0, div_mul_eq_mul_div, div_lt_iff hnq]
    have hstepA : (2 * i + 1) * (1024 % n) < n * (1024 / n) := by
      have hA0 : (2 * i + 1) * (1024 % n) + (1024 % n) ≤ 2 * (n * (1024 % n)) := by
        have hA1 : (2 * i + 1) * (1024 % n) + (1024 % n) = (2 * i + 2) * (1024 % n) := by
          ring
        rw [hA1]
        have hA2 : 2 * i + 2 ≤ 2 * n := by omega
        calc (2 * i + 2) * (1024 % n) ≤ (2 * n) * (1024 % n) :=
              Nat.mul_le_mul_right _ hA2
          _ = 2 * (n * (1024 % n)) := by ring
      have hA3 : 2 * (n * (1024 % n)) < 1024 := by omega
      linarith
    have hstepB : (2 * i + 1) * 1024 < 2 * (n * ((i + 1) * (1024 / n))) := by
      have e0 : (1024 : ℕ) = n * (1024 / n) + 1024 % n := key.symm
      have e1 : (2 * i + 1) * 1024
          = (2 * i + 1) * (n * (1024 / n)) + (2 * i + 1) * (1024 % n) := by
        conv_lhs => rw [e0]
        ring
      have e2 : 2 * (n * ((i + 1) * (1024 / n)))
          = (2 * i + 1) * (n * (1024 / n)) + n * (1024 / n) := by ring
      rw [e1, e2]
      exact Nat.add_lt_add_left hstepA _
    have hcast : ((2 * i + 1) * 1024 : ℚ) < 2 * ((n : ℚ) * (((i : ℚ) + 1) * ((1024 / n : Nat) : ℚ))) := by
      exact_mod_cast hstepB
    push_cast at hcast ⊢
    linarith

/-- C1 (amended): for `n ≥ 1` simple emission materials with
    `n * (1024 mod n) < 512` (in particular whenever `n` divides 1024, and for
    all `n ≤ 22`), a selected mesh face whose slot material maps to index `i`
    has all its loop UVs set by `remap_uvs` to the centre of column `i` —
    `((i + 0.5) / n, 0.5)` — the nearest-filter texel `⌊u * 1024⌋` of that UV
    lies inside the x-range `[i * (1024 // n), (i + 1) * (1024 // n))` that
    `create_texture_atlas` fills with material `i`'s colour, and the atlas
    pixel there holds exactly that colour, so the face samples the correct
    colour column. -/
theorem spec_c1 (mats : List (String × Color3)) (hn : 1 ≤ mats.length)
    (hcond : mats.length * (1024 % mats.length) < 512)
    (i : Nat) (hi : i < mats.length)
    (slots : List (Option String)) (f : Face) (nm : String)
    (hslot : slots.get? f.material_index = some (some nm))
    (hname : lookupMap (matIndexMapOf mats) nm = some i)
    (c : Color3) (hc : (mats.map Prod.snd).get? i = some c) :
    (remapFaceUVs slots (matIndexMapOf mats) 1024 f).loops
        = f.loops.map (fun _ => (((i : ℚ) + 1 / 2) / (mats.length : ℚ), 1 / 2)) ∧
    i * (1024 / mats.length) ≤ uvTexel (((i : ℚ) + 1 / 2) / (mats.length : ℚ)) 1024 ∧
    uvTexel (((i : ℚ) + 1 / 2) / (mats.length : ℚ)) 1024 < (i + 1) * (1024 / mats.length) ∧
    ∀ k, k < 4 → atlasPixels (mats.map Prod.snd) 1024 256
        ((uvTexel ((1 : ℚ) / 2) 256 * 1024
          + uvTexel (((i : ℚ) + 1 / 2) / (mats.length : ℚ)) 1024) * 4 + k)
      = channelVal c k := by
  obtain ⟨hlo, hhi⟩ := centerTexel_bounds mats.length i hn hi hcond
  have hrow : uvTexel ((1 : ℚ) / 2) 256 = 128 := by
    rw [uvTexel]
    norm_num
  refine ⟨?_, hlo, hhi, ?_⟩
  · rw [remapFaceUVs, hslot]
    simp only [hname]
    rw [matIndexMapOf_length, remapUV_eq i mats.length 1024 hn (by omega)]
  · intro k hk
    set x := uvTexel (((i : ℚ) + 1 / 2) / (mats.length : ℚ)) 1024 with hx
    have hcwadd : (i + 1) * (1024 / mats.length)
        = i * (1024 / mats.length) + 1024 / mats.length := by ring
    have hdx : x - i * (1024 / mats.length) < 1024 / mats.length := by omega
    have hidx : (uvTexel ((1 : ℚ) / 2) 256 * 1024 + x) * 4 + k
        = atlasPxIndex 1024 (i * (1024 / mats.length))
            (x - i * (1024 / mats.length)) 128 + k := by
      rw [hrow, atlasPxIndex]
      omega
    rw [hidx]
    exact atlasPixels_spec2 (mats.map Prod.snd) 1024 256 mats.length
      (List.length_map _ _) i (x - i * (1024 / mats.length)) 128 k hi hdx
      (by omega) hk c hc

/-- 25 white materials: `1024 // 25 = 40`, so the filled columns only cover
    x-coordinates `[0, 1000)` while the centre of column 24 maps to texel
    1003. -/
def c1mats : List (String × Color3) :=
  (List.range 25).map (fun j => (natRepr j, ((1 : ℚ), 1, 1)))

/-- C1 counterexample: with 25 materials, the face using material 24 gets UV
    `u = 24.5 / 25`, whose texel `⌊u * 1024⌋ = 1003` lies outside the region
    `[960, 1000)` that `create_texture_atlas` filled for column 24; the atlas
    pixel the face samples is the unwritten `0`, not the material's red
    channel `1`. -/
theorem spec_c1_cex :
    (remapUV 24 25 1024).1 = ((24 : ℚ) + 1 / 2) / 25 ∧
    uvTexel ((remapUV 24 25 1024).1) 1024 = 1003 ∧
    ¬ (24 * (1024 / 25) ≤ 1003 ∧ 1003 < (24 + 1) * (1024 / 25)) ∧
    (create_texture_atlas c1mats 1024 256).map
        (fun img => img.pixels ((uvTexel ((1 : ℚ) / 2) 256 * 1024
          + uvTexel ((remapUV 24 25 1024).1) 1024) * 4)) = some 0 ∧
    (c1mats.get? 24).map (fun p => p.2.1) = some 1 := by
  have hu : (remapUV 24 25 1024).1 = ((24 : ℚ) + 1 / 2) / 25 := by
    rw [remapUV_eq 24 25 1024 (by omega) (by omega)]
    norm_num
  have htex : uvTexel ((remapUV 24 25 1024).1) 1024 = 1003 := by
    rw [hu, uvTexel, Nat.floor_eq_iff (by positivity)]
    norm_num
  have hrow : uvTexel ((1 : ℚ) / 2) 256 = 128 := by
    rw [uvTexel]
    norm_num
  have hlen : c1mats.length = 25 := by simp [c1mats]
  have hne : ¬ (c1mats.length = 0) := by rw [hlen]; omega
  refine ⟨hu, htex, by decide, ?_, ?_⟩
  · rw [create_texture_atlas, if_neg hne, Option.map_some', htex, hrow]
    have hpix : atlasPixels (c1mats.map Prod.snd) 1024 256 ((128 * 1024 + 1003) * 4) = 0 := by
      unfold atlasPixels
      have hlen2 : (c1mats.map Prod.snd).length = 25 := by simp [c1mats]
      rw [hlen2]
      apply foldCols_frame
      intro ic hic q hq hbox
      obtain ⟨hlt, _⟩ := pyEnum_mem (l := c1mats.map Prod.snd) (i := ic.1) (a := ic.2)
        (by simpa using hic)
      rw [hlen2] at hlt
      obtain ⟨xx, hxx, yy, hyy, hqeq⟩ := columnPositions_mem.mp hq
      rw [← hqeq] at hbox
      rw [show (1024 : Nat) / 25 = 40 by norm_num] at hxx hbox
      rcases hbox with hb | hb | hb | hb <;>
        · rw [atlasPxIndex] at hb
          omega
    simp [hpix]
  · simp only [c1mats, List.get?_eq_getElem?, List.getElem?_map,
      List.getElem?_range (by omega : (24 : Nat) < 25)]
    rfl

/-- C1 witness: two materials, a face in slot 0 holding the second material. -/
theorem spec_c1_witness :
    1 ≤ mcPair.length ∧ mcPair.length * (1024 % mcPair.length) < 512 ∧ 1 < mcPair.length ∧
    ([some "G"] : List (Option String)).get? (Face.mk 0 [((0 : ℚ), (0 : ℚ))]).material_index
      = some (some "G") ∧
    lookupMap (matIndexMapOf mcPair) "G" = some 1 ∧
    (mcPair.map Prod.snd).get? 1 = some ((0 : ℚ), 1, 0) ∧
    ((remapFaceUVs [some "G"] (matIndexMapOf mcPair) 1024 (Face.mk 0 [((0 : ℚ), (0 : ℚ))])).loops
        = (Face.mk 0 [((0 : ℚ), (0 : ℚ))]).loops.map
            (fun _ => ((((1 : ℕ) : ℚ) + 1 / 2) / (mcPair.length : ℚ), 1 / 2)) ∧
      1 * (1024 / mcPair.length) ≤ uvTexel ((((1 : ℕ) : ℚ) + 1 / 2) / (mcPair.length : ℚ)) 1024 ∧
      uvTexel ((((1 : ℕ) : ℚ) + 1 / 2) / (mcPair.length : ℚ)) 1024 < (1 + 1) * (1024 / mcPair.length) ∧
      ∀ k, k < 4 → atlasPixels (mcPair.map Prod.snd) 1024 256
          ((uvTexel ((1 : ℚ) / 2) 256 * 1024
            + uvTexel ((((1 : ℕ) : ℚ) + 1 / 2) / (mcPair.length : ℚ)) 1024) * 4 + k)
        = channelVal ((0 : ℚ), 1, 0) k) :=
  ⟨by decide, by decide, by decide, by decide, by decide, by decide,
    spec_c1 mcPair (by decide) (by decide) 1 (by decide) [some "G"]
      (Face.mk 0 [((0 : ℚ), (0 : ℚ))]) "G" (by decide) (by decide) ((0 : ℚ), 1, 0) (by decide)⟩

theorem convert_execute_of_ne (s : Scene)
    (h : get_simple_emission_materials s.materials ≠ []) :
    convert_execute s =
      ({ materials := s.materials ++ [create_atlas_material],
         objects := s.objects.map (fun o =>
           if o.selected && o.objType == "MESH" then
             { o with
                 faces := o.faces.map
                   (remapFaceUVs o.slots
                     (matIndexMapOf (get_simple_emission_materials s.materials)) 1024),
                 slots := [some "AtlasMaterial"] }
           else o),
         originalMaterials :=
           (s.objects.filter (fun o => o.selected && o.objType == "MESH")).map
             (fun o => (o.name, o.slots)) }, true) := by
  have hbe : (get_simple_emission_materials s.materials).isEmpty = false := by
    cases hmats : get_simple_emission_materials s.materials with
    | nil => exact absurd hmats h
    | cons a t => rfl
  have hlen : ¬ ((get_simple_emission_materials s.materials).length = 0) := by
    intro hc
    exact h (List.length_eq_zero.mp hc)
  simp only [convert_execute, hbe, Bool.false_eq_true, if_false,
    create_texture_atlas, hlen]
  rfl

/-- C6: after a successful Create Atlas run, every selected mesh object ends
    with exactly one material slot holding the shared atlas material, and
    every other object (including selected non-meshes) is unchanged. -/
theorem spec_c6 (s : Scene) (h : get_simple_emission_materials s.materials ≠ []) :
    (convert_execute s).2 = true ∧
    ∀ j (o : BObject), s.objects.get? j = some o →
      if (o.selected && o.objType == "MESH") = true
      then ∃ fs, (convert_execute s).1.objects.get? j
          = some { o with slots := [some "AtlasMaterial"], faces := fs }
      else (convert_execute s).1.objects.get? j = some o := by
  rw [convert_execute_of_ne s h]
  refine ⟨rfl, ?_⟩
  intro j o ho
  rw [List.get?_eq_getElem?] at ho
  by_cases hsel : (o.selected && o.objType == "MESH") = true
  · rw [if_pos hsel]
    refine ⟨o.faces.map (remapFaceUVs o.slots
        (matIndexMapOf (get_simple_emission_materials s.materials)) 1024), ?_⟩
    dsimp only
    rw [List.get?_eq_getElem?, List.getElem?_map, ho, Option.map_some', if_pos hsel]
  · rw [if_neg hsel]
    dsimp only
    rw [List.get?_eq_getElem?, List.getElem?_map, ho, Option.map_some', if_neg hsel]

/-- C7: a successful Create Atlas run first clears `ORIGINAL_MATERIALS`, so
    afterwards the map holds exactly one entry per selected mesh object of
    that run — the object's name mapped to its pre-run material list — and
    nothing from any earlier run; and the Revert operator rebuilds a selected
    mesh's slots only from this in-memory map (an object without an entry is
    untouched). -/
theorem spec_c7 (s : Scene) (h : get_simple_emission_materials s.materials ≠ []) :
    (convert_execute s).1.originalMaterials
      = (s.objects.filter (fun o => o.selected && o.objType == "MESH")).map
          (fun o => (o.name, o.slots)) ∧
    ∀ t : Scene, t.originalMaterials ≠ [] →
      ∀ j (o : BObject), t.objects.get? j = some o →
        (revert_execute t).1.objects.get? j = some (
          if o.selected = true then
            match lookupOrig t.originalMaterials o.name with
            | some l => if o.objType == "MESH"
                then { o with slots := restoreMats t.materials l } else o
            | none => o
          else o) := by
  constructor
  · rw [convert_execute_of_ne s h]
  · intro t ht j o ho
    have hbe2 : t.originalMaterials.isEmpty = false := by
      cases hOM : t.originalMaterials with
      | nil => exact absurd hOM ht
      | cons a tl => rfl
    rw [List.get?_eq_getElem?] at ho
    simp only [revert_execute, hbe2, Bool.false_eq_true, if_false]
    rw [List.get?_eq_getElem?, List.getElem?_map, ho, Option.map_some']

/-- The spec-side predicate of C3: a "simple emission material" — `use_nodes`
    with exactly one Emission node whose colour input is a constant (not
    linked). -/
def specSimpleEmission (m : BMaterial) : Prop :=
  m.use_nodes = true ∧
  (m.nodes.filter (fun nd => nd.ntype == "EMISSION")).length = 1 ∧
  ∀ nd ∈ m.nodes, nd.ntype = "EMISSION" → nd.colorLinked = false

/-- The spec-side predicate of C3: the material is assigned to some selected
    mesh object. -/
def assignedToSelectedMesh (s : Scene) (nm : String) : Prop :=
  ∃ o ∈ s.objects, o.selected = true ∧ o.objType = "MESH" ∧ (some nm) ∈ o.slots

/-- A simple emission material that no object uses. -/
def matStray : BMaterial :=
  { name := "StrayEmission", use_nodes := true,
    nodes := [ { ntype := "EMISSION", colorDefault := (1, 0, 0, 1), colorLinked := false } ] }

/-- A scene whose only selected mesh has no material slots at all, while the
    blend file holds the unused emission material `StrayEmission`. -/
def sceneC3 : Scene :=
  { materials := [matStray],
    objects := [ { name := "Cube", objType := "MESH", selected := true,
                   slots := [], faces := [] } ],
    originalMaterials := [] }

/-- C3: the code evaluated at the failing input — `StrayEmission` is a simple
    emission material assigned to no selected mesh, yet
    `get_simple_emission_materials` (which scans all of `bpy.data.materials`)
    gives it an atlas column and the Create Atlas operator finishes
    successfully. -/
theorem spec_c3 :
    (get_simple_emission_materials sceneC3.materials).map Prod.fst = ["StrayEmission"] ∧
    specSimpleEmission matStray ∧
    ¬ assignedToSelectedMesh sceneC3 "StrayEmission" ∧
    (convert_execute sceneC3).2 = true := by
  refine ⟨by decide, ?_, ?_, by decide⟩
  · refine ⟨rfl, rfl, ?_⟩
    decide
  · intro hassigned
    rcases hassigned with ⟨o, ho, _, _, hslot⟩
    rcases List.mem_singleton.mp ho with rfl
    exact absurd hslot (List.not_mem_nil _)

/-- A one-material scene with one selected mesh and one selected light, and a
    stale revert-map entry from an earlier run. -/
def matRed : BMaterial :=
  { name := "Red", use_nodes := true,
    nodes := [ { ntype := "EMISSION", colorDefault := (1, 0, 0, 1), colorLinked := false } ] }

def objCube : BObject :=
  { name := "Cube", objType := "MESH", selected := true,
    slots := [some "Red"], faces := [ { material_index := 0, loops := [(0, 0)] } ] }

def objLamp : BObject :=
  { name := "Lamp", objType := "LIGHT", selected := true, slots := [], faces := [] }

def sceneA : Scene :=
  { materials := [matRed], objects := [objCube, objLamp],
    originalMaterials := [("Ghost", [some "Gone"])] }

/-- C6 witness: running Create Atlas on `sceneA`. -/
theorem spec_c6_witness :
    get_simple_emission_materials sceneA.materials ≠ [] ∧
    ((convert_execute sceneA).2 = true ∧
      ∀ j (o : BObject), sceneA.objects.get? j = some o →
        if (o.selected && o.objType == "MESH") = true
        then ∃ fs, (convert_execute sceneA).1.objects.get? j
            = some { o with slots := [some "AtlasMaterial"], faces := fs }
        else (convert_execute sceneA).1.objects.get? j = some o) :=
  ⟨by decide, spec_c6 sceneA (by decide)⟩

/-- C7 witness: the same run on `sceneA`, showing the stale `Ghost` entry is
    gone. -/
theorem spec_c7_witness :
    get_simple_emission_materials sceneA.materials ≠ [] ∧
    ((convert_execute sceneA).1.originalMaterials
        = (sceneA.objects.filter (fun o => o.selected && o.objType == "MESH")).map
            (fun o => (o.name, o.slots)) ∧
      ∀ t : Scene, t.originalMaterials ≠ [] →
        ∀ j (o : BObject), t.objects.get? j = some o →
          (revert_execute t).1.objects.get? j = some (
            if o.selected = true then
              match lookupOrig t.originalMaterials o.name with
              | some l => if o.objType == "MESH"
                  then { o with slots := restoreMats t.materials l } else o
              | none => o
            else o)) :=
  ⟨by decide, spec_c7 sceneA (by decide)⟩
